import Mathlib

/-!
Verification of the point-cloud morphing viewer (`src/main.js`).

The JavaScript source is shallowly embedded.  Numbers are modelled by exact
rationals `ℚ` (the source computes with IEEE doubles; the embedding uses the
ideal field semantics of the same formulas).  The GLSL vertex shader is
modelled as a pure per-vertex function; its transcendental sub-terms
(`sin`-based hash, wind sway, random flicker, `length`, `pow`) enter either
as per-element input data, as `Real.sqrt`, or as a real exponent, as noted
on each definition.  The asynchronous LUT (colour-grading) loader is
modelled as an explicit state machine driven by an event list.
-/

/-- Three-component vector of rationals (GLSL `vec3`, a JS position or
colour triple). -/
abbrev V3 : Type := ℚ × ℚ × ℚ

/-- The zero vector. -/
def v3Zero : V3 := (0, 0, 0)

/-- The all-ones vector (opaque white, `arr.fill(1)` in `buildPoints`). -/
def v3One : V3 := (1, 1, 1)

/-- GLSL `clamp(x, lo, hi) = min(max(x, lo), hi)` over `ℚ`. -/
def qClamp (x lo hi : ℚ) : ℚ := min (max x lo) hi

/-- GLSL `mix(a, b, t) = a + (b - a) * t` over `ℚ`. -/
def qMix (a b t : ℚ) : ℚ := a + (b - a) * t

/-- Componentwise `mix` on `vec3`. -/
def v3Mix (a b : V3) (t : ℚ) : V3 :=
  (qMix a.1 b.1 t, qMix a.2.1 b.2.1 t, qMix a.2.2 b.2.2 t)

/-- Componentwise vector addition. -/
def v3Add (a b : V3) : V3 := (a.1 + b.1, a.2.1 + b.2.1, a.2.2 + b.2.2)

/-- A vector scaled by a scalar. -/
def v3Smul (a : V3) (c : ℚ) : V3 := (a.1 * c, a.2.1 * c, a.2.2 * c)

/-! ## Geometry resampler (`sampleGeometryAttributes`, `buildPoints`) -/

/-- A three.js `BufferGeometry` as consumed by the sampler: an optional
`position` attribute and an optional `color` attribute, each an ordered list
of triples (the source reads them with `getX`/`getY`/`getZ`). -/
structure Geom where
  positions : Option (List V3)
  colors : Option (List V3)

/-- The record returned by `sampleGeometryAttributes`
(`{ count, positions, colors }`, `main.js` line 688). -/
structure SampleOut where
  count : ℕ
  positions : List V3
  colors : Option (List V3)

/-- Source index read for output slot `i` (`main.js` lines 673-676):
`step = srcCount / count`, `idx` is the running sum of `step` (after `i`
additions it is exactly `i * step`; the float accumulation is modelled by
exact rational arithmetic), and the index read is
`min(srcCount - 1, floor(idx))`. -/
def sampleSrcIndex (srcCount count i : ℕ) : ℕ :=
  min (srcCount - 1) (Int.toNat ⌊(i : ℚ) * ((srcCount : ℚ) / (count : ℚ))⌋)

/-- `sampleGeometryAttributes(sourceGeom, targetCount)` (`main.js` 661-689):
returns `null` when `targetCount` is zero (JS falsy) or the geometry has no
position attribute; otherwise emits
`count = max(1, min(targetCount, srcCount))` elements, output slot `i`
copying source element `sampleSrcIndex srcCount count i`, with colours
carried through exactly when a colour attribute is present. -/
def sampleGeometryAttributes (g : Geom) (targetCount : ℕ) : Option SampleOut :=
  if targetCount = 0 then none
  else
    match g.positions with
    | none => none
    | some ps =>
      let srcCount := ps.length
      let count := max 1 (min targetCount srcCount)
      some { count := count
           , positions := (List.range count).map fun i =>
               ps.getD (sampleSrcIndex srcCount count i) v3Zero
           , colors := g.colors.map fun cl => (List.range count).map fun i =>
               cl.getD (sampleSrcIndex srcCount count i) v3Zero }

/-- The rebuilt render state produced by `buildPoints` (`main.js`
1026-1107): the element count and the four per-element attribute arrays
bound to the new `BufferGeometry`, plus the `hasVertexColor` flag passed to
the material. -/
structure BuiltPoints where
  count : ℕ
  position : List V3
  color : List V3
  morphPosition : List V3
  morphColor : List V3
  hasColor : Bool

/-- `buildPoints()` (`main.js` 1026-1107) as a function of the state it
reads: the base geometry, the optional morph-target geometry and the keep
ratio.  `baseTarget = max(1, floor(baseCount * keepRatio))`; when a morph
position attribute exists the final count is the min of base and morph
targets; both geometries are then resampled to `finalCount`; missing colour
arrays fall back to the base colours or to opaque white.  Returns `none` on
the source's early-return paths. -/
def buildPoints (base : Geom) (morphTarget : Option Geom) (r : ℚ) : Option BuiltPoints :=
  match base.positions with
  | none => none
  | some bp =>
    let baseTarget := max 1 (Int.toNat ⌊(bp.length : ℚ) * r⌋)
    let morphPos := morphTarget.bind Geom.positions
    let finalCount :=
      match morphPos with
      | some mp => min baseTarget (max 1 (Int.toNat ⌊(mp.length : ℚ) * r⌋))
      | none => baseTarget
    match sampleGeometryAttributes base finalCount with
    | none => none
    | some bs =>
      let targetSample :=
        match morphPos, morphTarget with
        | some _, some mg => sampleGeometryAttributes mg finalCount
        | _, _ => none
      let colorArr :=
        match bs.colors with
        | some c => c
        | none => List.replicate bs.count v3One
      let morphPositionArr :=
        match targetSample with
        | some ts => ts.positions
        | none => bs.positions
      let morphColorArr :=
        match targetSample with
        | some ts =>
          match ts.colors with
          | some c => c
          | none => colorArr
        | none => colorArr
      some { count := bs.count
           , position := bs.positions
           , color := colorArr
           , morphPosition := morphPositionArr
           , morphColor := morphColorArr
           , hasColor := bs.colors.isSome }

/-- The spec's formula for the resampled element count:
`max(1, min(floor(N * r), N))`.  Stated from the spec's words, to be
compared with what `buildPoints`/`sampleGeometryAttributes` produce. -/
def specResampleCount (n : ℕ) (r : ℚ) : ℕ :=
  max 1 (min (Int.toNat ⌊(n : ℚ) * r⌋) n)

/-- The spec's formula for the stride index,
`index = floor(i * sourceCount / targetCount)`.  Stated from the spec's
words, to be compared with `sampleSrcIndex`. -/
def specStrideIndex (i srcCount targetCount : ℕ) : ℕ :=
  i * srcCount / targetCount

/-! ## Vertex shader (`makeGlowMaterial`, `main.js` 839-947) -/

/-- GLSL `smoothstep` interpolation polynomial `t * t * (3 - 2 * t)`
over `ℚ`. -/
def smoothPolyQ (t : ℚ) : ℚ := t * t * (3 - 2 * t)

/-- GLSL `smoothstep(e0, e1, x)` over `ℚ` (the source uses it with
`e0 = uWaveWidth > e1 = 0`, the reversed-edge form). -/
def qSmoothstep (e0 e1 x : ℚ) : ℚ :=
  smoothPolyQ (qClamp ((x - e0) / (e1 - e0)) 0 1)

/-- The pre-gamma wave band of the vertex shader (`main.js` 911-920) as a
function of the radial distance `d` from the wave centre:
`phase = fract(d / max(uWaveLength, 1e-5) - uTime * uWaveSpeed)`,
`distToFront = min(phase, 1 - phase)`,
`band = smoothstep(uWaveWidth, 0, distToFront)`. -/
def waveBand (l s w time d : ℚ) : ℚ :=
  let phase := Int.fract (d / max l (1 / 100000) - time * s)
  qSmoothstep w 0 (min phase (1 - phase))

/-- The wave-mode glow pulse `wavePulse = pow(band, uBandGamma)`
(`main.js` 921), with the band gamma as a real exponent. -/
noncomputable def wavePulse (l s w : ℚ) (gamma : ℝ) (time d : ℚ) : ℝ :=
  ((waveBand l s w time d : ℚ) : ℝ) ^ gamma

/-- Vertex position after morph blend, scatter and wind (`main.js`
877-905): `p = mix(position, morphPosition, clamp(uMorph, 0, 1))`, then
`p += randDir * uScatterAmp`, then `p += windDisp * uWindEnabled`.
`randDir` is the element's stable pseudo-random unit direction and
`windDisp` the wind sway vector `windDir * (uWindAmp * sway * (0.2+0.8*h))`;
in the source both are built from `sin`/`normalize` hashes
(transcendental), so they enter the embedding as per-element input data,
with `windDisp` multiplied by the `uWindEnabled` flag exactly as in the
source. -/
def displacedPos (p0 p1 randDir windDisp : V3) (morph scatterAmp windEnabled : ℚ) : V3 :=
  let p := v3Mix p0 p1 (qClamp morph 0 1)
  let p' := v3Add p (v3Smul randDir scatterAmp)
  v3Add p' (v3Smul windDisp windEnabled)

/-- The scatter-driven shrink factor applied to the point size
(`main.js` 940): `scatterScale = clamp(1 - (uScatterAmp / 0.5), 0, 1)`. -/
def scatterScaleQ (amp : ℚ) : ℚ := qClamp (1 - amp / (1 / 2)) 0 1

/-- GLSL `clamp` over `ℝ`. -/
noncomputable def rClamp (x lo hi : ℝ) : ℝ := min (max x lo) hi

/-- GLSL `mix` over `ℝ`. -/
noncomputable def rMix (a b t : ℝ) : ℝ := a + (b - a) * t

/-- GLSL `smoothstep` interpolation polynomial over `ℝ`. -/
noncomputable def smoothPolyR (t : ℝ) : ℝ := t * t * (3 - 2 * t)

/-- GLSL `smoothstep(e0, e1, x)` over `ℝ`. -/
noncomputable def rSmoothstep (e0 e1 x : ℝ) : ℝ :=
  smoothPolyR (rClamp ((x - e0) / (e1 - e0)) 0 1)

/-- Euclidean length of the difference of two rational vectors
(GLSL `length(worldPos - uWaveCenter)`, `main.js` 911). -/
noncomputable def vLen (a b : V3) : ℝ :=
  Real.sqrt (((a.1 - b.1 : ℚ) : ℝ) ^ 2 + ((a.2.1 - b.2.1 : ℚ) : ℝ) ^ 2
    + ((a.2.2 - b.2.2 : ℚ) : ℝ) ^ 2)

/-- The pre-gamma wave band over `ℝ`, for a radial distance that is itself
a real (the output of `vLen`); mirrors `waveBand`. -/
noncomputable def waveBandR (l s w time : ℚ) (d : ℝ) : ℝ :=
  let phase := Int.fract (d / max (l : ℝ) (1 / 100000) - (time : ℚ) * (s : ℚ))
  rSmoothstep (w : ℚ) 0 (min phase (1 - phase))

/-- Global uniforms read by the vertex shader's size computation.  The
camera is modelled in the program's axis-aligned framing (camera at
`(0, 0, camZ)` looking down `-z` with the model matrix the identity, which
is how `loadModel` frames the scene), so `-mvPosition.z = camZ - p.z`. -/
structure VertexParams where
  morph : ℚ
  scatterAmp : ℚ
  windEnabled : ℚ
  glowMode : ℚ
  time : ℚ
  waveCenter : V3
  waveLength : ℚ
  waveSpeed : ℚ
  waveWidth : ℚ
  bandGamma : ℝ
  pulseAmp : ℚ
  baseSize : ℚ
  useWorldSize : ℚ
  worldSize : ℚ
  pxPerUnit : ℚ
  sizeAttenEnabled : ℚ
  sizeAttenRef : ℚ
  dpr : ℚ
  camZ : ℚ

/-- Per-element vertex inputs.  `randomPulse` stands for the random-mode
flicker `pow(clamp(0.5 + 0.5*sin(uTime*uRandomGlowSpeed + hash*2π), 0, 1), 3)`
(`main.js` 923-925), which is transcendental in the source and enters the
embedding as an opaque per-element value mixed in by `uGlowMode`. -/
structure VertexIn where
  p0 : V3
  p1 : V3
  randDir : V3
  windDisp : V3
  randomPulse : ℝ

/-- The final multiplication producing `gl_PointSize` (`main.js` 938-942):
`sizePx * scatterScale * uDPR`, where `raw` is
`basePx * (1 + uPulseAmp * vPulse) * atten`. -/
noncomputable def sizeWithScatter (raw : ℝ) (amp dpr : ℚ) : ℝ :=
  raw * ((scatterScaleQ amp : ℚ) : ℝ) * ((dpr : ℚ) : ℝ)

/-- `gl_PointSize` as computed by the vertex shader (`main.js` 876-942):
morph/scatter/wind position, radial wave band and gamma pulse mixed with
the random-mode pulse by `uGlowMode`, view depth
`dist = max(0.01, -mvPosition.z)`, screen- vs world-size base pixel size,
optional legacy attenuation, pulse growth, scatter shrink, and the device
pixel ratio. -/
noncomputable def vertexPointSize (P : VertexParams) (v : VertexIn) : ℝ :=
  let p := displacedPos v.p0 v.p1 v.randDir v.windDisp P.morph P.scatterAmp P.windEnabled
  let coord := vLen p P.waveCenter
  let band := waveBandR P.waveLength P.waveSpeed P.waveWidth P.time coord
  let pulse := rMix (band ^ P.bandGamma) v.randomPulse (rClamp ((P.glowMode : ℚ) : ℝ) 0 1)
  let dist : ℝ := max (1 / 100) (((P.camZ : ℚ) : ℝ) - ((p.2.2 : ℚ) : ℝ))
  let basePx := rMix ((P.baseSize : ℚ) : ℝ)
    (((P.worldSize : ℚ) : ℝ) * (((P.pxPerUnit : ℚ) : ℝ) / dist)) ((P.useWorldSize : ℚ) : ℝ)
  let atten := rMix 1 (rClamp (((P.sizeAttenRef : ℚ) : ℝ) / dist) (1 / 10) 4)
    (((P.sizeAttenEnabled : ℚ) : ℝ) * (1 - ((P.useWorldSize : ℚ) : ℝ)))
  sizeWithScatter (basePx * (1 + ((P.pulseAmp : ℚ) : ℝ) * pulse) * atten) P.scatterAmp P.dpr

/-! ## LUT preset cache and race guard (`main.js` 30-39, 147-199) -/

/-- The `LUT_PRESETS` registry, key to `.cube` path. -/
def lutPresetPath : String → Option String
  | "warm" => some ("luts/warm.cube")
  | "green" => some ("luts/LUT_green.cube")
  | "mutedUrban" => some ("luts/LUT_muted-urban.cube")
  | "forest" => some ("luts/LUT_forest.cube")
  | "latest" => some ("luts/LUT_PRESETSSTORE.cube")
  | _ => none

/-- Association-list read, `Map.get(path)`. -/
def cacheGet : List (String × ℕ) → String → Option ℕ
  | [], _ => none
  | (q, w) :: rest, p => if q = p then some w else cacheGet rest p

/-- Association-list write, `Map.set(path, tex)`: replaces the value of an
existing key, else appends. -/
def cacheSet : List (String × ℕ) → String → ℕ → List (String × ℕ)
  | [], p, v => [(p, v)]
  | (q, w) :: rest, p, v =>
    if q = p then (p, v) :: rest else (q, w) :: cacheSet rest p v

/-- The mutable state around the LUT pass, after `initPost` has run:
`activeLutKey`, the bound LUT resource `lutPass.lut` (a loaded texture,
identified by the path it was loaded from plus a per-load token so distinct
loads of one path are distinguishable), the `lutLoadMap` cache, the set of
in-flight loads (path, captured normalized key, token), a fresh-token
counter, `lutIntensity`, `lutPass.intensity` and `lutPass.enabled`. -/
structure LutState where
  activeLutKey : String
  lut : Option (String × ℕ)
  cache : List (String × ℕ)
  pending : List (String × String × ℕ)
  nextId : ℕ
  intensity : ℚ
  passIntensity : ℚ
  enabled : Bool

/-- `updateLutPass()` (`main.js` 147-152): copies the intensity onto the
pass and recomputes
`enabled = activeLutKey !== "none" && lutPass.lut && lutIntensity > 0`. -/
def updateLutPass (s : LutState) : LutState :=
  { s with passIntensity := s.intensity
         , enabled := (s.activeLutKey != "none") && s.lut.isSome && decide (0 < s.intensity) }

/-- `setLutPreset(key)` (`main.js` 154-199), post-`initPost`: an unknown
key normalizes to `"none"`, clears the bound LUT and re-evaluates the pass;
a known key whose path is cached binds the cached resource immediately;
otherwise an asynchronous load is issued for the path, capturing the
normalized key (the completion callbacks are `lutLoadOk`/`lutLoadFail`). -/
def setLutPreset (s : LutState) (key : String) : LutState :=
  match lutPresetPath key with
  | none => updateLutPass { s with activeLutKey := "none", lut := none }
  | some path =>
    match cacheGet s.cache path with
    | some tex => updateLutPass { s with activeLutKey := key, lut := some (path, tex) }
    | none =>
      { s with activeLutKey := key
             , pending := s.pending ++ [(path, key, s.nextId)]
             , nextId := s.nextId + 1 }

/-- Success callback of the load issued by `setLutPreset` (`main.js`
180-187): always caches the result under its path; binds it to the pass
only if the currently active selection still equals the captured key. -/
def lutLoadOk (s : LutState) (path captured : String) (id : ℕ) : LutState :=
  let s' := { s with cache := cacheSet s.cache path id
                   , pending := s.pending.erase (path, captured, id) }
  if s.activeLutKey = captured then updateLutPass { s' with lut := some (path, id) }
  else s'

/-- Failure callback (`main.js` 189-197): if the selection that triggered
the load is still active, revert to `"none"`, clear the bound LUT and
re-evaluate the pass; otherwise do nothing. -/
def lutLoadFail (s : LutState) (path captured : String) (id : ℕ) : LutState :=
  let s' := { s with pending := s.pending.erase (path, captured, id) }
  if s.activeLutKey = captured then
    updateLutPass { s' with activeLutKey := "none", lut := none }
  else s'

/-- One external event hitting the LUT subsystem. -/
inductive LutEvent where
  | select : String → LutEvent
  | loadOk : String → String → ℕ → LutEvent
  | loadFail : String → String → ℕ → LutEvent

/-- Dispatch one event. -/
def lutStep (s : LutState) : LutEvent → LutState
  | LutEvent.select k => setLutPreset s k
  | LutEvent.loadOk p c n => lutLoadOk s p c n
  | LutEvent.loadFail p c n => lutLoadFail s p c n

/-- Run a list of events from a state. -/
def lutRun (s : LutState) (es : List LutEvent) : LutState := es.foldl lutStep s

/-- The program's initial LUT state (`main.js` 37-39, 137-139):
`activeLutKey = "none"`, no bound LUT, empty cache, intensity `1.0`,
pass disabled. -/
def lutInitState : LutState :=
  { activeLutKey := "none", lut := none, cache := [], pending := []
  , nextId := 0, intensity := 1, passIntensity := 1, enabled := false }

/-! ## Resampler theorems -/

/-- Characterization of a successful `sampleGeometryAttributes` call: for a
nonzero target and a present position attribute it returns exactly the
record built from `max 1 (min targetCount srcCount)` strided reads. -/
theorem sample_char (g : Geom) (ps : List V3) (t : ℕ) (hg : g.positions = some ps)
    (ht : t ≠ 0) :
    sampleGeometryAttributes g t = some
      { count := max 1 (min t ps.length)
      , positions := (List.range (max 1 (min t ps.length))).map fun i =>
          ps.getD (sampleSrcIndex ps.length (max 1 (min t ps.length)) i) v3Zero
      , colors := g.colors.map fun cl => (List.range (max 1 (min t ps.length))).map fun i =>
          cl.getD (sampleSrcIndex ps.length (max 1 (min t ps.length)) i) v3Zero } := by
  simp [sampleGeometryAttributes, hg, ht]

/-- For an in-range output slot the accumulated-stride index is exactly the
integer division `i * srcCount / count`, and the `min (srcCount - 1)` clamp
never binds. -/
theorem sampleSrcIndex_eq_div (n c i : ℕ) (hc : 1 ≤ c) (hcn : c ≤ n) (hi : i < c) :
    sampleSrcIndex n c i = i * n / c ∧ i * n / c < n := by
  have hn : 0 < n := lt_of_lt_of_le hc hcn
  have harg : (i : ℚ) * ((n : ℚ) / (c : ℚ)) = ((i * n : ℕ) : ℚ) / ((c : ℕ) : ℚ) := by
    push_cast
    ring
  have hfl : Int.toNat ⌊(i : ℚ) * ((n : ℚ) / (c : ℚ))⌋ = i * n / c := by
    rw [Int.floor_toNat, harg, Nat.floor_div_nat, Nat.floor_natCast]
  have hlt : i * n / c < n := by
    rw [Nat.div_lt_iff_lt_mul hc, Nat.mul_comm n c]
    exact Nat.mul_lt_mul_of_pos_right hi hn
  constructor
  · unfold sampleSrcIndex
    rw [hfl]
    exact min_eq_right (Nat.le_sub_one_of_lt hlt)
  · exact hlt

/-- Claim C1: for a source with `N >= 1` elements the resampler emits
exactly `max(1, min(target, N))` elements for any target count `>= 1`, and
under a keep-ratio `r ∈ [0.02, 1]` (target `max(1, floor(N*r))`, as
`buildPoints` feeds it) exactly `max(1, min(floor(N*r), N))` elements. -/
theorem c1_resampler_count :
    (∀ (g : Geom) (ps : List V3) (t : ℕ), g.positions = some ps → 1 ≤ t →
      ∃ s, sampleGeometryAttributes g t = some s ∧
        s.count = max 1 (min t ps.length) ∧ s.positions.length = max 1 (min t ps.length))
    ∧ (∀ (g : Geom) (ps : List V3) (r : ℚ), g.positions = some ps → 1 ≤ ps.length →
        1 / 50 ≤ r → r ≤ 1 →
        ∃ s, sampleGeometryAttributes g (max 1 (Int.toNat ⌊(ps.length : ℚ) * r⌋)) = some s ∧
          s.count = specResampleCount ps.length r ∧
          s.positions.length = specResampleCount ps.length r) := by
  have base : ∀ (g : Geom) (ps : List V3) (t : ℕ), g.positions = some ps → 1 ≤ t →
      ∃ s, sampleGeometryAttributes g t = some s ∧
        s.count = max 1 (min t ps.length) ∧ s.positions.length = max 1 (min t ps.length) := by
    intro g ps t hg ht
    refine ⟨_, sample_char g ps t hg (by omega), rfl, ?_⟩
    simp
  refine ⟨base, ?_⟩
  intro g ps r hg hN _ _
  obtain ⟨s, hs, hc, hl⟩ := base g ps (max 1 (Int.toNat ⌊(ps.length : ℚ) * r⌋)) hg (le_max_left _ _)
  have hspec : max 1 (min (max 1 (Int.toNat ⌊(ps.length : ℚ) * r⌋)) ps.length) =
      specResampleCount ps.length r := by
    unfold specResampleCount
    omega
  exact ⟨s, hs, by rw [hc, hspec], by rw [hl, hspec]⟩

/-- Witness for C1: a 10,000-element source at keep-ratio `0.18` yields
exactly 1,800 elements. -/
theorem c1_resampler_count_witness :
    ∃ s, sampleGeometryAttributes { positions := some (List.replicate 10000 v3Zero), colors := none }
        (max 1 (Int.toNat ⌊((List.replicate 10000 v3Zero).length : ℚ) * (9 / 50)⌋)) = some s ∧
      s.count = specResampleCount (List.replicate 10000 v3Zero).length (9 / 50) ∧
      s.positions.length = specResampleCount (List.replicate 10000 v3Zero).length (9 / 50) ∧
      specResampleCount 10000 (9 / 50) = 1800 := by
  obtain ⟨s, h1, h2, h3⟩ := c1_resampler_count.2
    { positions := some (List.replicate 10000 v3Zero), colors := none }
    (List.replicate 10000 v3Zero) (9 / 50) rfl (by rw [List.length_replicate]; omega)
    (by norm_num) (by norm_num)
  have hf : (⌊(10000 : ℚ) * (9 / 50)⌋ : ℤ) = 1800 := by norm_num
  refine ⟨s, h1, h2, h3, ?_⟩
  unfold specResampleCount
  rw [show ((10000 : ℕ) : ℚ) = (10000 : ℚ) by norm_num, hf]
  rfl

/-- Claim C10: with a nonempty source and a positive target, every source
index the sampler reads is `< srcCount` (the `min(srcCount - 1, floor(idx))`
clamp guarantees it), and every slot of the output position array — and of
the colour array when a colour attribute is present — is written. -/
theorem c10_index_bounds :
    ∀ (g : Geom) (ps : List V3) (t : ℕ), g.positions = some ps → 1 ≤ ps.length → 1 ≤ t →
      ∃ s, sampleGeometryAttributes g t = some s ∧
        (∀ i, sampleSrcIndex ps.length s.count i < ps.length) ∧
        s.positions.length = s.count ∧
        (∀ cl, g.colors = some cl → s.colors = some ((List.range s.count).map fun i =>
          cl.getD (sampleSrcIndex ps.length s.count i) v3Zero)) ∧
        (∀ csl, s.colors = some csl → csl.length = s.count) := by
  intro g ps t hg hN ht
  refine ⟨_, sample_char g ps t hg (by omega), ?_, by simp, ?_, ?_⟩
  · intro i
    calc sampleSrcIndex ps.length (max 1 (min t ps.length)) i ≤ ps.length - 1 :=
          min_le_left _ _
      _ < ps.length := Nat.sub_lt (by omega) one_pos
  · intro cl hcl
    simp [hcl]
  · intro csl hcsl
    rcases hg' : g.colors with _ | cl
    · simp [hg'] at hcsl
    · simp [hg'] at hcsl
      simp [← hcsl]

/-- Witness for C10 at a concrete two-element source and target 5. -/
theorem c10_index_bounds_witness :
    ∃ s, sampleGeometryAttributes { positions := some [v3Zero, v3One], colors := none } 5 =
        some s ∧
      (∀ i, sampleSrcIndex [v3Zero, v3One].length s.count i < [v3Zero, v3One].length) ∧
      s.positions.length = s.count ∧
      (∀ cl, Geom.colors { positions := some [v3Zero, v3One], colors := none } = some cl →
        s.colors = some ((List.range s.count).map fun i =>
          cl.getD (sampleSrcIndex [v3Zero, v3One].length s.count i) v3Zero)) ∧
      (∀ csl, s.colors = some csl → csl.length = s.count) :=
  c10_index_bounds { positions := some [v3Zero, v3One], colors := none } [v3Zero, v3One] 5
    rfl (by decide) (by decide)

/-- Claim C6 (amended): output slot `i` is copied from source index
`floor(i * srcCount / outputCount)` where `outputCount` is the effective
count `max(1, min(targetCount, srcCount))` (for `1 ≤ target ≤ srcCount`
this is the claim's `floor(i * srcCount / targetCount)`), and the sampler
is a deterministic function of the geometry's attributes alone. -/
theorem c6_stride_index :
    (∀ (n c i : ℕ), 1 ≤ c → c ≤ n → i < c → sampleSrcIndex n c i = i * n / c)
    ∧ (∀ (g : Geom) (ps : List V3) (t : ℕ), g.positions = some ps → 1 ≤ ps.length → 1 ≤ t →
        ∃ s, sampleGeometryAttributes g t = some s ∧ s.count = max 1 (min t ps.length) ∧
          (∀ i, i < s.count →
            s.positions.getD i v3Zero = ps.getD (i * ps.length / s.count) v3Zero))
    ∧ (∀ (g₁ g₂ : Geom) (t : ℕ), g₁.positions = g₂.positions → g₁.colors = g₂.colors →
        sampleGeometryAttributes g₁ t = sampleGeometryAttributes g₂ t) := by
  refine ⟨fun n c i hc hcn hi => (sampleSrcIndex_eq_div n c i hc hcn hi).1, ?_, ?_⟩
  · intro g ps t hg hN ht
    refine ⟨_, sample_char g ps t hg (by omega), rfl, ?_⟩
    intro i hi
    have hc1 : 1 ≤ max 1 (min t ps.length) := le_max_left _ _
    have hcn : max 1 (min t ps.length) ≤ ps.length := by omega
    have hi' : i < max 1 (min t ps.length) := hi
    have hidx := (sampleSrcIndex_eq_div ps.length _ i hc1 hcn hi').1
    rw [List.getD_eq_getElem?_getD]
    simp only [List.getElem?_map, List.getElem?_range, hi', dif_pos]
    simp [hidx]
  · intro g₁ g₂ t hp hc
    unfold sampleGeometryAttributes
    rw [hp, hc]

/-- Counterexample to C6 as stated: with a 2-element source and target
count 5, the code emits both source elements (indices 0 and 1), while the
claim's formula `floor(i * sourceCount / targetCount)` predicts source
index 0 for output slot 1. -/
theorem c6_counterexample :
    sampleGeometryAttributes { positions := some [v3Zero, v3One], colors := none } 5 =
      some { count := 2, positions := [v3Zero, v3One], colors := none }
    ∧ sampleSrcIndex 2 2 1 = 1
    ∧ specStrideIndex 1 2 5 = 0
    ∧ [v3Zero, v3One].getD (specStrideIndex 1 2 5) v3Zero ≠ [v3Zero, v3One].getD 1 v3Zero := by
  refine ⟨?_, ?_, by rfl, ?_⟩
  · rw [sample_char { positions := some [v3Zero, v3One], colors := none } [v3Zero, v3One] 5
      rfl (by omega)]
    norm_num [sampleSrcIndex, List.range_succ, List.getD]
  · norm_num [sampleSrcIndex]
  · norm_num [specStrideIndex, List.getD, v3Zero, v3One]

/-- Witness for C6 at concrete inputs: stride index of slot 3 with 10
source elements resampled to 5, plus a concrete sampled geometry. -/
theorem c6_stride_index_witness :
    sampleSrcIndex 10 5 3 = 3 * 10 / 5
    ∧ (∃ s, sampleGeometryAttributes { positions := some [v3Zero, v3One], colors := none } 2 =
        some s ∧ s.count = max 1 (min 2 [v3Zero, v3One].length) ∧
        (∀ i, i < s.count →
          s.positions.getD i v3Zero = [v3Zero, v3One].getD (i * [v3Zero, v3One].length / s.count) v3Zero)) :=
  ⟨c6_stride_index.1 10 5 3 (by decide) (by decide) (by decide),
   c6_stride_index.2.1 { positions := some [v3Zero, v3One], colors := none } [v3Zero, v3One] 2
     rfl (by decide) (by decide)⟩

/-! ## Morph blend theorem -/

/-- Claim C7: with scatter amplitude 0 and wind disabled, the blended
position is exactly `mix(basePos, targetPos, clamp(blend, 0, 1))`; for a
blend factor in `[0, 1]` it is the plain linear interpolation, equal to the
base position at 0 and to the morph-target position at 1. -/
theorem c7_morph_blend :
    (∀ (p0 p1 rd wd : V3) (b : ℚ),
      displacedPos p0 p1 rd wd b 0 0 = v3Mix p0 p1 (qClamp b 0 1))
    ∧ (∀ (p0 p1 rd wd : V3) (b : ℚ), 0 ≤ b → b ≤ 1 →
        displacedPos p0 p1 rd wd b 0 0 = v3Mix p0 p1 b)
    ∧ (∀ (p0 p1 rd wd : V3), displacedPos p0 p1 rd wd 0 0 0 = p0)
    ∧ (∀ (p0 p1 rd wd : V3), displacedPos p0 p1 rd wd 1 0 0 = p1) := by
  have base : ∀ (p0 p1 rd wd : V3) (b : ℚ),
      displacedPos p0 p1 rd wd b 0 0 = v3Mix p0 p1 (qClamp b 0 1) := by
    intro p0 p1 rd wd b
    obtain ⟨x0, y0, z0⟩ := p0
    obtain ⟨x1, y1, z1⟩ := p1
    obtain ⟨xr, yr, zr⟩ := rd
    obtain ⟨xw, yw, zw⟩ := wd
    simp only [displacedPos, v3Mix, v3Add, v3Smul, qMix, Prod.mk.injEq]
    refine ⟨by ring, by ring, by ring⟩
  have hclamp : ∀ b : ℚ, 0 ≤ b → b ≤ 1 → qClamp b 0 1 = b := by
    intro b h0 h1
    unfold qClamp
    rw [max_eq_left h0, min_eq_left h1]
  refine ⟨base, ?_, ?_, ?_⟩
  · intro p0 p1 rd wd b h0 h1
    rw [base, hclamp b h0 h1]
  · intro p0 p1 rd wd
    rw [base, hclamp 0 le_rfl zero_le_one]
    obtain ⟨x0, y0, z0⟩ := p0
    obtain ⟨x1, y1, z1⟩ := p1
    simp only [v3Mix, qMix, Prod.mk.injEq]
    refine ⟨by ring, by ring, by ring⟩
  · intro p0 p1 rd wd
    rw [base, hclamp 1 zero_le_one le_rfl]
    obtain ⟨x0, y0, z0⟩ := p0
    obtain ⟨x1, y1, z1⟩ := p1
    simp only [v3Mix, qMix, Prod.mk.injEq]
    refine ⟨by ring, by ring, by ring⟩

/-- Witness for C7 at concrete positions and blend factor one half. -/
theorem c7_morph_blend_witness :
    displacedPos (0, 0, 0) (1, 2, 3) (1, 0, 0) (0, 1, 0) (1 / 2) 0 0 =
      v3Mix (0, 0, 0) (1, 2, 3) (1 / 2)
    ∧ displacedPos (0, 0, 0) (1, 2, 3) (1, 0, 0) (0, 1, 0) 0 0 0 = (0, 0, 0)
    ∧ displacedPos (0, 0, 0) (1, 2, 3) (1, 0, 0) (0, 1, 0) 1 0 0 = (1, 2, 3) :=
  ⟨c7_morph_blend.2.1 (0, 0, 0) (1, 2, 3) (1, 0, 0) (0, 1, 0) (1 / 2) (by norm_num) (by norm_num),
   c7_morph_blend.2.2.1 (0, 0, 0) (1, 2, 3) (1, 0, 0) (0, 1, 0),
   c7_morph_blend.2.2.2 (0, 0, 0) (1, 2, 3) (1, 0, 0) (0, 1, 0)⟩

/-! ## Wave pulse theorems -/

/-- The smoothstep polynomial stays in `[0, 1]` on `[0, 1]`. -/
theorem smoothPolyQ_mem (t : ℚ) (h0 : 0 ≤ t) (h1 : t ≤ 1) :
    0 ≤ smoothPolyQ t ∧ smoothPolyQ t ≤ 1 := by
  unfold smoothPolyQ
  constructor
  · nlinarith
  · nlinarith [sq_nonneg (t - 1)]

/-- On `[0, 1]` the smoothstep polynomial attains 1 only at 1. -/
theorem smoothPolyQ_eq_one_iff (t : ℚ) (h0 : 0 ≤ t) (h1 : t ≤ 1) :
    smoothPolyQ t = 1 ↔ t = 1 := by
  constructor
  · intro h
    unfold smoothPolyQ at h
    have hfac : (t - 1) ^ 2 * (2 * t + 1) = 0 := by
      have e : (t - 1) ^ 2 * (2 * t + 1) = 1 - t * t * (3 - 2 * t) := by ring
      rw [e, h]
      ring
    rcases mul_eq_zero.mp hfac with h2 | h3
    · have ht : t - 1 = 0 := pow_eq_zero_iff (two_ne_zero) |>.mp h2
      linarith
    · linarith
  · intro h
    rw [h]
    unfold smoothPolyQ
    ring

/-- The clamped value fed to the smoothstep polynomial is in `[0, 1]`. -/
theorem qClamp01_mem (a : ℚ) : 0 ≤ qClamp a 0 1 ∧ qClamp a 0 1 ≤ 1 :=
  ⟨le_min (le_max_right a 0) zero_le_one, min_le_right _ _⟩

/-- For a positive band width and a phase in `[0, 1)`, the reversed-edge
smoothstep of `min(phase, 1 - phase)` is 1 exactly when the phase is 0. -/
theorem qSmoothstep_band_eq_one_iff (w ph : ℚ) (hw : 0 < w) (hph0 : 0 ≤ ph)
    (hph1 : ph < 1) : qSmoothstep w 0 (min ph (1 - ph)) = 1 ↔ ph = 0 := by
  have hx0 : 0 ≤ min ph (1 - ph) := le_min hph0 (by linarith)
  unfold qSmoothstep
  obtain ⟨hc0, hc1⟩ := qClamp01_mem ((min ph (1 - ph) - w) / (0 - w))
  rw [smoothPolyQ_eq_one_iff _ hc0 hc1]
  have step1 : qClamp ((min ph (1 - ph) - w) / (0 - w)) 0 1 = 1 ↔
      1 ≤ (min ph (1 - ph) - w) / (0 - w) := by
    unfold qClamp
    rw [min_eq_right_iff]
    simp [le_max_iff]
  have step2 : 1 ≤ (min ph (1 - ph) - w) / (0 - w) ↔ min ph (1 - ph) ≤ 0 := by
    have hneg : (0 : ℚ) - w < 0 := by linarith
    rw [le_div_iff_of_neg hneg]
    constructor
    · intro h
      linarith
    · intro h
      linarith
  have step3 : min ph (1 - ph) ≤ 0 ↔ ph = 0 := by
    constructor
    · intro h
      have h0 : min ph (1 - ph) = 0 := le_antisymm h hx0
      rcases min_cases ph (1 - ph) with ⟨e, _⟩ | ⟨e, _⟩
      · rw [e] at h0
        exact h0
      · rw [e] at h0
        linarith
    · intro h
      rw [h]
      simp
  rw [step1, step2, step3]

/-- Claim C2 (amended): for wavelengths `≥ 1e-5` (the shader clamps the
wavelength from below at `1e-5`) the pre-gamma wave band — and hence the
gamma-shaped pulse — is periodic in radial distance with period equal to
the wavelength; for a positive band width it attains its maximum value 1
exactly at the distances where `d / wavelength - time * speed` is an
integer (so for `waveLength = speed = 0.6`, `time = 1` the maxima sit at
`d = 0.36 + 0.6k`, not at `{0.6, 1.2, 1.8, ...}`); and the band always
lies in `[0, 1]`. -/
theorem c2_wave_band :
    (∀ l s w time d : ℚ, 1 / 100000 ≤ l →
      waveBand l s w time (d + l) = waveBand l s w time d)
    ∧ (∀ (l s w : ℚ) (gamma : ℝ) (time d : ℚ), 1 / 100000 ≤ l →
        wavePulse l s w gamma time (d + l) = wavePulse l s w gamma time d)
    ∧ (∀ l s w time d : ℚ, 1 / 100000 ≤ l → 0 < w →
        (waveBand l s w time d = 1 ↔ ∃ k : ℤ, d / l - time * s = (k : ℚ)))
    ∧ (∀ l s w time d : ℚ, 0 ≤ waveBand l s w time d ∧ waveBand l s w time d ≤ 1) := by
  have hper : ∀ l s w time d : ℚ, 1 / 100000 ≤ l →
      waveBand l s w time (d + l) = waveBand l s w time d := by
    intro l s w time d hl
    have hl0 : (0 : ℚ) < l := lt_of_lt_of_le (by norm_num) hl
    unfold waveBand
    rw [max_eq_left hl]
    have harg : (d + l) / l - time * s = (d / l - time * s) + 1 := by
      field_simp
      ring
    rw [harg, Int.fract_add_one]
  refine ⟨hper, ?_, ?_, ?_⟩
  · intro l s w gamma time d hl
    unfold wavePulse
    rw [hper l s w time d hl]
  · intro l s w time d hl hw
    unfold waveBand
    rw [max_eq_left hl]
    rw [qSmoothstep_band_eq_one_iff w _ hw (Int.fract_nonneg _) (Int.fract_lt_one _)]
    rw [Int.fract_eq_iff]
    constructor
    · rintro ⟨-, -, z, hz⟩
      exact ⟨z, by linarith⟩
    · rintro ⟨k, hk⟩
      exact ⟨le_refl 0, by norm_num, k, by rw [sub_zero]; exact hk⟩
  · intro l s w time d
    unfold waveBand qSmoothstep
    obtain ⟨hc0, hc1⟩ := qClamp01_mem _
    exact smoothPolyQ_mem _ hc0 hc1

/-- Counterexample to C2 as stated: with the source's default configuration
`waveLength = 0.6`, `waveSpeed = 0.6`, `waveWidth = 0.15`,
`bandGamma = 1.5` at `time = 1.0`, the pulse at radial distance `0.6` is 0,
not maximal (the claim places a maximum at every distance in
`{0.6, 1.2, 1.8, ...}`), while distance `0.36` does give the maximum 1;
moreover for a wavelength of `1e-6 > 0` the band is not periodic with
period equal to the wavelength, because the shader clamps the wavelength
to `1e-5`. -/
theorem c2_counterexample :
    waveBand (3 / 5) (3 / 5) (3 / 20) 1 (3 / 5) = 0
    ∧ wavePulse (3 / 5) (3 / 5) (3 / 20) (3 / 2) 1 (3 / 5) = 0
    ∧ waveBand (3 / 5) (3 / 5) (3 / 20) 1 (9 / 25) = 1
    ∧ waveBand (1 / 1000000) 0 (3 / 20) 0 (0 + 1 / 1000000) ≠
        waveBand (1 / 1000000) 0 (3 / 20) 0 0 := by
  have h1 : waveBand (3 / 5) (3 / 5) (3 / 20) 1 (3 / 5) = 0 := by
    norm_num [waveBand, qSmoothstep, qClamp, smoothPolyQ, Int.fract, max_def, min_def]
  refine ⟨h1, ?_, ?_, ?_⟩
  · unfold wavePulse
    rw [h1]
    push_cast
    exact Real.zero_rpow (by norm_num)
  · norm_num [waveBand, qSmoothstep, qClamp, smoothPolyQ, Int.fract, max_def, min_def]
  · norm_num [waveBand, qSmoothstep, qClamp, smoothPolyQ, Int.fract, max_def, min_def]

/-- Witness for C2 at the source's default wave configuration: period
`0.6` starting from distance `0.36`, the maximum characterization, and the
band bounds. -/
theorem c2_wave_band_witness :
    waveBand (3 / 5) (3 / 5) (3 / 20) 1 (9 / 25 + 3 / 5) =
      waveBand (3 / 5) (3 / 5) (3 / 20) 1 (9 / 25)
    ∧ wavePulse (3 / 5) (3 / 5) (3 / 20) (3 / 2) 1 (9 / 25 + 3 / 5) =
        wavePulse (3 / 5) (3 / 5) (3 / 20) (3 / 2) 1 (9 / 25)
    ∧ (waveBand (3 / 5) (3 / 5) (3 / 20) 1 (9 / 25) = 1 ↔
        ∃ k : ℤ, (9 / 25 : ℚ) / (3 / 5) - 1 * (3 / 5) = (k : ℚ))
    ∧ (0 ≤ waveBand (3 / 5) (3 / 5) (3 / 20) 1 (9 / 25) ∧
        waveBand (3 / 5) (3 / 5) (3 / 20) 1 (9 / 25) ≤ 1) :=
  ⟨c2_wave_band.1 (3 / 5) (3 / 5) (3 / 20) 1 (9 / 25) (by norm_num),
   c2_wave_band.2.1 (3 / 5) (3 / 5) (3 / 20) (3 / 2) 1 (9 / 25) (by norm_num),
   c2_wave_band.2.2.1 (3 / 5) (3 / 5) (3 / 20) 1 (9 / 25) (by norm_num) (by norm_num),
   c2_wave_band.2.2.2 (3 / 5) (3 / 5) (3 / 20) 1 (9 / 25)⟩

/-! ## Scatter and point size theorems -/

/-- Claim C4 (amended): with the rest of the size computation held fixed,
the final point size is non-increasing in the scatter amplitude, the
scatter factor is exactly the linear ramp `1 - 2 * amp` on `[0, 0.5]`, and
for every amplitude `≥ 0.5` the full vertex pipeline outputs point size 0
for every element.  (Monotonicity of the full pipeline on `[0, 0.5)` fails:
scatter also displaces the element, changing its view depth and pulse; see
the counterexample.) -/
theorem c4_scatter_size :
    (∀ (raw : ℝ) (dpr a b : ℚ), 0 ≤ raw → 0 ≤ dpr → a ≤ b →
      sizeWithScatter raw b dpr ≤ sizeWithScatter raw a dpr)
    ∧ (∀ a : ℚ, 0 ≤ a → a ≤ 1 / 2 → scatterScaleQ a = 1 - 2 * a)
    ∧ (∀ (P : VertexParams) (v : VertexIn), 1 / 2 ≤ P.scatterAmp →
        vertexPointSize P v = 0) := by
  refine ⟨?_, ?_, ?_⟩
  · intro raw dpr a b hraw hdpr hab
    have hmono : scatterScaleQ b ≤ scatterScaleQ a := by
      unfold scatterScaleQ qClamp
      have hdiv : (1 : ℚ) - b / (1 / 2) ≤ 1 - a / (1 / 2) := by
        have ea : a / (1 / 2 : ℚ) = 2 * a := by ring
        have eb : b / (1 / 2 : ℚ) = 2 * b := by ring
        rw [ea, eb]
        linarith
      exact min_le_min (max_le_max hdiv le_rfl) le_rfl
    have hcast : ((scatterScaleQ b : ℚ) : ℝ) ≤ ((scatterScaleQ a : ℚ) : ℝ) :=
      Rat.cast_le.mpr hmono
    have hd : (0 : ℝ) ≤ ((dpr : ℚ) : ℝ) := by exact_mod_cast hdpr
    unfold sizeWithScatter
    exact mul_le_mul_of_nonneg_right (mul_le_mul_of_nonneg_left hcast hraw) hd
  · intro a h0 h12
    unfold scatterScaleQ qClamp
    have e : (1 : ℚ) - a / (1 / 2) = 1 - 2 * a := by ring
    rw [e, max_eq_left (by linarith), min_eq_left (by linarith)]
  · intro P v hamp
    have hscale : scatterScaleQ P.scatterAmp = 0 := by
      unfold scatterScaleQ qClamp
      have e : (1 : ℚ) - P.scatterAmp / (1 / 2) = 1 - 2 * P.scatterAmp := by ring
      rw [e, max_eq_right (by linarith), min_eq_left (by norm_num)]
    unfold vertexPointSize
    simp only [sizeWithScatter, hscale]
    push_cast
    ring

/-- Counterexample to C4 as stated: the final footprint size is not
monotonically decreasing in the scatter amplitude on `[0, 0.5]`.  For an
element at `(0, 0, 1.7)` whose stable random direction points at the
camera (at `z = 2`, world-size mode, wind off, wave band zero at both
positions), raising the amplitude from `0` to `0.2` moves the point closer
to the camera, and the projected size grows from 50 px to 90 px. -/
theorem c4_counterexample :
    vertexPointSize
      { morph := 0, scatterAmp := 0, windEnabled := 0, glowMode := 0, time := 0
      , waveCenter := v3Zero, waveLength := 10, waveSpeed := 3 / 5, waveWidth := 3 / 20
      , bandGamma := 1, pulseAmp := 6 / 5, baseSize := 3, useWorldSize := 1
      , worldSize := 3 / 200, pxPerUnit := 1000, sizeAttenEnabled := 0, sizeAttenRef := 2
      , dpr := 1, camZ := 2 }
      { p0 := (0, 0, 17 / 10), p1 := (0, 0, 17 / 10), randDir := (0, 0, 1)
      , windDisp := v3Zero, randomPulse := 0 } <
    vertexPointSize
      { morph := 0, scatterAmp := 1 / 5, windEnabled := 0, glowMode := 0, time := 0
      , waveCenter := v3Zero, waveLength := 10, waveSpeed := 3 / 5, waveWidth := 3 / 20
      , bandGamma := 1, pulseAmp := 6 / 5, baseSize := 3, useWorldSize := 1
      , worldSize := 3 / 200, pxPerUnit := 1000, sizeAttenEnabled := 0, sizeAttenRef := 2
      , dpr := 1, camZ := 2 }
      { p0 := (0, 0, 17 / 10), p1 := (0, 0, 17 / 10), randDir := (0, 0, 1)
      , windDisp := v3Zero, randomPulse := 0 } := by
  have hv0 : displacedPos (0, 0, 17 / 10) (0, 0, 17 / 10) (0, 0, 1) v3Zero 0 0 0 =
      ((0 : ℚ), (0 : ℚ), (17 / 10 : ℚ)) := by
    norm_num [displacedPos, v3Mix, v3Add, v3Smul, qMix, qClamp, v3Zero, max_def, min_def]
  have hv1 : displacedPos (0, 0, 17 / 10) (0, 0, 17 / 10) (0, 0, 1) v3Zero 0 (1 / 5) 0 =
      ((0 : ℚ), (0 : ℚ), (19 / 10 : ℚ)) := by
    norm_num [displacedPos, v3Mix, v3Add, v3Smul, qMix, qClamp, v3Zero, max_def, min_def]
  have hlen : ∀ z : ℚ, 0 ≤ z → vLen ((0 : ℚ), (0 : ℚ), z) v3Zero = ((z : ℚ) : ℝ) := by
    intro z hz
    unfold vLen v3Zero
    push_cast
    rw [show ((0 : ℝ) - 0) ^ 2 + ((0 : ℝ) - 0) ^ 2 + ((z : ℚ) - 0 : ℝ) ^ 2 =
      (((z : ℚ) : ℝ)) ^ 2 by ring]
    exact Real.sqrt_sq (by exact_mod_cast hz)
  have hband : ∀ z : ℚ, Int.fract ((z : ℝ) / 10) = (z : ℝ) / 10 →
      (3 / 20 : ℝ) ≤ (z : ℝ) / 10 → (z : ℝ) / 10 ≤ 1 / 2 →
      waveBandR 10 (3 / 5) (3 / 20) 0 ((z : ℚ) : ℝ) = 0 := by
    intro z hfr hlo hhi
    unfold waveBandR rSmoothstep rClamp smoothPolyR
    rw [show max ((10 : ℚ) : ℝ) (1 / 100000) = ((10 : ℚ) : ℝ) by
      rw [max_eq_left]; push_cast; norm_num]
    push_cast
    rw [show (z : ℝ) / 10 - 0 * (3 / 5) = (z : ℝ) / 10 by ring, hfr]
    rw [show min ((z : ℝ) / 10) (1 - (z : ℝ) / 10) = (z : ℝ) / 10 by
      rw [min_eq_left]; linarith]
    rw [show ((z : ℝ) / 10 - 3 / 20) / (0 - 3 / 20) = -(((z : ℝ) / 10 - 3 / 20) * (20 / 3)) by
      ring]
    rw [show max (-(((z : ℝ) / 10 - 3 / 20) * (20 / 3))) 0 = 0 by
      rw [max_eq_right]; nlinarith]
    rw [show min (0 : ℝ) 1 = 0 by norm_num]
    ring
  have e0 : vertexPointSize
      { morph := 0, scatterAmp := 0, windEnabled := 0, glowMode := 0, time := 0
      , waveCenter := v3Zero, waveLength := 10, waveSpeed := 3 / 5, waveWidth := 3 / 20
      , bandGamma := 1, pulseAmp := 6 / 5, baseSize := 3, useWorldSize := 1
      , worldSize := 3 / 200, pxPerUnit := 1000, sizeAttenEnabled := 0, sizeAttenRef := 2
      , dpr := 1, camZ := 2 }
      { p0 := (0, 0, 17 / 10), p1 := (0, 0, 17 / 10), randDir := (0, 0, 1)
      , windDisp := v3Zero, randomPulse := 0 } = 50 := by
    unfold vertexPointSize
    simp only [hv0]
    rw [hlen (17 / 10) (by norm_num)]
    rw [hband (17 / 10) (by rw [Int.fract_eq_self.mpr ⟨by push_cast; norm_num, by push_cast; norm_num⟩])
      (by push_cast; norm_num) (by push_cast; norm_num)]
    rw [show ((0 : ℝ)) ^ (1 : ℝ) = 0 by rw [Real.rpow_one]]
    unfold sizeWithScatter rMix rClamp scatterScaleQ qClamp
    push_cast
    rw [show max (1 / 100 : ℝ) (2 - 17 / 10) = 3 / 10 by rw [max_eq_right] <;> norm_num]
    norm_num [max_def, min_def]
  have e1 : vertexPointSize
      { morph := 0, scatterAmp := 1 / 5, windEnabled := 0, glowMode := 0, time := 0
      , waveCenter := v3Zero, waveLength := 10, waveSpeed := 3 / 5, waveWidth := 3 / 20
      , bandGamma := 1, pulseAmp := 6 / 5, baseSize := 3, useWorldSize := 1
      , worldSize := 3 / 200, pxPerUnit := 1000, sizeAttenEnabled := 0, sizeAttenRef := 2
      , dpr := 1, camZ := 2 }
      { p0 := (0, 0, 17 / 10), p1 := (0, 0, 17 / 10), randDir := (0, 0, 1)
      , windDisp := v3Zero, randomPulse := 0 } = 90 := by
    unfold vertexPointSize
    simp only [hv1]
    rw [hlen (19 / 10) (by norm_num)]
    rw [hband (19 / 10) (by rw [Int.fract_eq_self.mpr ⟨by push_cast; norm_num, by push_cast; norm_num⟩])
      (by push_cast; norm_num) (by push_cast; norm_num)]
    rw [show ((0 : ℝ)) ^ (1 : ℝ) = 0 by rw [Real.rpow_one]]
    unfold sizeWithScatter rMix rClamp scatterScaleQ qClamp
    push_cast
    rw [show max (1 / 100 : ℝ) (2 - 19 / 10) = 1 / 10 by rw [max_eq_right] <;> norm_num]
    norm_num [max_def, min_def]
  rw [e0, e1]
  norm_num

/-- Witness for C4: concrete shrink-factor monotonicity and linearity, and
a full pipeline evaluation at scatter amplitude exactly `0.5` giving point
size 0. -/
theorem c4_scatter_size_witness :
    sizeWithScatter 10 (2 / 5) 1 ≤ sizeWithScatter 10 (1 / 5) 1
    ∧ scatterScaleQ (1 / 4) = 1 - 2 * (1 / 4)
    ∧ vertexPointSize
        { morph := 1 / 3, scatterAmp := 1 / 2, windEnabled := 1, glowMode := 1, time := 7
        , waveCenter := (1, 1, 1), waveLength := 3 / 5, waveSpeed := 3 / 5
        , waveWidth := 3 / 20, bandGamma := 3 / 2, pulseAmp := 6 / 5, baseSize := 3
        , useWorldSize := 0, worldSize := 3 / 200, pxPerUnit := 1000
        , sizeAttenEnabled := 1, sizeAttenRef := 2, dpr := 3 / 2, camZ := 2 }
        { p0 := (1, 2, 3), p1 := (4, 5, 6), randDir := (0, 0, 1), windDisp := (1, 0, 0)
        , randomPulse := 1 / 2 } = 0 :=
  ⟨c4_scatter_size.1 10 1 (1 / 5) (2 / 5) (by norm_num) (by norm_num) (by norm_num),
   c4_scatter_size.2.1 (1 / 4) (by norm_num) (by norm_num),
   c4_scatter_size.2.2 _ _ (by norm_num)⟩

/-! ## Rebuild invariant (`buildPoints`) theorems -/

/-- For `N ≥ 1` and a keep-ratio `≤ 1`, the per-geometry target
`max(1, floor(N * r))` is at most `N`, and the spec's resample-count
formula collapses to it. -/
theorem targetLe (n : ℕ) (r : ℚ) (hn : 1 ≤ n) (hr : r ≤ 1) :
    max 1 (Int.toNat ⌊(n : ℚ) * r⌋) ≤ n ∧
      specResampleCount n r = max 1 (Int.toNat ⌊(n : ℚ) * r⌋) := by
  have hnq : (0 : ℚ) ≤ (n : ℚ) := by positivity
  have hmul : (n : ℚ) * r ≤ (n : ℚ) := by nlinarith
  have hfl : ⌊(n : ℚ) * r⌋ ≤ (n : ℤ) := by
    calc ⌊(n : ℚ) * r⌋ ≤ ⌊(n : ℚ)⌋ := Int.floor_le_floor hmul
      _ = (n : ℤ) := Int.floor_natCast n
  have htn : Int.toNat ⌊(n : ℚ) * r⌋ ≤ n := Int.toNat_le.mpr hfl
  refine ⟨max_le hn htn, ?_⟩
  unfold specResampleCount
  omega

/-- Abstract characterization of a successful sample: its count, the
length of its position array, the length of its colour array when present,
and the absence of colours when the source has none. -/
theorem sample_out (g : Geom) (ps : List V3) (t : ℕ) (hg : g.positions = some ps)
    (ht : t ≠ 0) :
    ∃ s, sampleGeometryAttributes g t = some s ∧ s.count = max 1 (min t ps.length) ∧
      s.positions.length = s.count ∧
      (∀ csl, s.colors = some csl → csl.length = s.count) ∧
      (g.colors = none → s.colors = none) := by
  refine ⟨_, sample_char g ps t hg ht, rfl, by simp, ?_, ?_⟩
  · intro csl hcsl
    rcases hcol : g.colors with _ | cl
    · rw [hcol] at hcsl
      simp at hcsl
    · rw [hcol] at hcsl
      simp at hcsl
      simp [← hcsl]
  · intro hcol
    simp [hcol]

/-- Claim C5: after a rebuild the element count is
`min(resample(base), resample(morphTarget))` when a morph target exists,
else `resample(base)`, and the `position`, `color`, `morphPosition` and
`morphColor` arrays all have exactly that many elements. -/
theorem c5_rebuild_invariant :
    (∀ (base : Geom) (bp : List V3) (r : ℚ), base.positions = some bp → 1 ≤ bp.length →
      r ≤ 1 →
      ∃ b, buildPoints base none r = some b ∧
        b.count = specResampleCount bp.length r ∧
        b.position.length = b.count ∧ b.color.length = b.count ∧
        b.morphPosition.length = b.count ∧ b.morphColor.length = b.count)
    ∧ (∀ (base mg : Geom) (bp mp : List V3) (r : ℚ), base.positions = some bp →
        mg.positions = some mp → 1 ≤ bp.length → 1 ≤ mp.length → r ≤ 1 →
        ∃ b, buildPoints base (some mg) r = some b ∧
          b.count = min (specResampleCount bp.length r) (specResampleCount mp.length r) ∧
          b.position.length = b.count ∧ b.color.length = b.count ∧
          b.morphPosition.length = b.count ∧ b.morphColor.length = b.count) := by
  constructor
  · intro base bp r hbp hN hr1
    obtain ⟨hle, hspec⟩ := targetLe bp.length r hN hr1
    have hne : max 1 (Int.toNat ⌊(bp.length : ℚ) * r⌋) ≠ 0 := by omega
    obtain ⟨bs, hsb, hcnt, hplen, hclen, -⟩ :=
      sample_out base bp (max 1 (Int.toNat ⌊(bp.length : ℚ) * r⌋)) hbp hne
    rw [buildPoints, hbp]
    simp only [Option.none_bind]
    rw [hsb]
    refine ⟨_, rfl, ?_, ?_, ?_, ?_, ?_⟩
    · show bs.count = _
      rw [hcnt, hspec]
      omega
    · exact hplen
    · show (match bs.colors with
        | some c => c
        | none => List.replicate bs.count v3One).length = bs.count
      rcases hcol : bs.colors with _ | cl
      · simp
      · simpa using hclen cl hcol
    · exact hplen
    · show (match bs.colors with
        | some c => c
        | none => List.replicate bs.count v3One).length = bs.count
      rcases hcol : bs.colors with _ | cl
      · simp
      · simpa using hclen cl hcol
  · intro base mg bp mp r hbp hmp hNb hNm hr1
    obtain ⟨hleb, hspecb⟩ := targetLe bp.length r hNb hr1
    obtain ⟨hlem, hspecm⟩ := targetLe mp.length r hNm hr1
    have hne : min (max 1 (Int.toNat ⌊(bp.length : ℚ) * r⌋))
        (max 1 (Int.toNat ⌊(mp.length : ℚ) * r⌋)) ≠ 0 := by omega
    obtain ⟨bs, hsb, hcntb, hplenb, hclenb, -⟩ := sample_out base bp _ hbp hne
    obtain ⟨ts, hsm, hcntm, hplenm, hclenm, -⟩ := sample_out mg mp _ hmp hne
    rw [buildPoints, hbp]
    simp only [Option.some_bind]
    rw [hmp]
    simp only []
    rw [hsb, hsm]
    have hbs_cnt : bs.count = min (max 1 (Int.toNat ⌊(bp.length : ℚ) * r⌋))
        (max 1 (Int.toNat ⌊(mp.length : ℚ) * r⌋)) := by
      rw [hcntb]
      omega
    have hts_cnt : ts.count = bs.count := by
      rw [hcntm, hbs_cnt]
      omega
    refine ⟨_, rfl, ?_, ?_, ?_, ?_, ?_⟩
    · show bs.count = _
      rw [hbs_cnt, hspecb, hspecm]
    · exact hplenb
    · show (match bs.colors with
        | some c => c
        | none => List.replicate bs.count v3One).length = bs.count
      rcases hcol : bs.colors with _ | cl
      · simp
      · simpa using hclenb cl hcol
    · show ts.positions.length = bs.count
      rw [hplenm, hts_cnt]
    · show (match ts.colors with
        | some c => c
        | none => match bs.colors with
          | some c => c
          | none => List.replicate bs.count v3One).length = bs.count
      rcases hcolm : ts.colors with _ | cm
      · rcases hcol : bs.colors with _ | cl
        · simp
        · simpa using hclenb cl hcol
      · rw [show (match some cm with
          | some c => c
          | none => match bs.colors with
            | some c => c
            | none => List.replicate bs.count v3One) = cm from rfl]
        rw [hclenm cm hcolm, hts_cnt]

/-- Witness for C5: a 3-point base with colours morphing to a 2-point
target at keep-ratio one half. -/
theorem c5_rebuild_invariant_witness :
    ∃ b, buildPoints
        { positions := some [v3Zero, v3One, v3Zero], colors := some [v3One, v3One, v3One] }
        (some { positions := some [v3Zero, v3One], colors := none }) (1 / 2) = some b ∧
      b.count = min (specResampleCount [v3Zero, v3One, v3Zero].length (1 / 2))
        (specResampleCount [v3Zero, v3One].length (1 / 2)) ∧
      b.position.length = b.count ∧ b.color.length = b.count ∧
      b.morphPosition.length = b.count ∧ b.morphColor.length = b.count :=
  c5_rebuild_invariant.2
    { positions := some [v3Zero, v3One, v3Zero], colors := some [v3One, v3One, v3One] }
    { positions := some [v3Zero, v3One], colors := none }
    [v3Zero, v3One, v3Zero] [v3Zero, v3One] (1 / 2) rfl rfl
    (by decide) (by decide) (by norm_num)

/-! ## LUT cache and race theorems -/

/-- Overwriting one key of the association list keeps every present key
present. -/
theorem cacheGet_cacheSet_isSome (c : List (String × ℕ)) (p : String) (v : ℕ)
    (q : String) (h : (cacheGet c q).isSome = true) :
    (cacheGet (cacheSet c p v) q).isSome = true := by
  induction c with
  | nil => simp [cacheGet] at h
  | cons hd tl ih =>
    obtain ⟨hq, hw⟩ := hd
    by_cases hqp : hq = p
    · subst hqp
      rw [cacheSet, if_pos rfl]
      by_cases hpq : hq = q
      · simp [cacheGet, hpq]
      · rw [cacheGet, if_neg hpq] at h
        simp [cacheGet, hpq, h]
    · rw [cacheSet, if_neg hqp]
      by_cases hhq : hq = q
      · simp [cacheGet, hhq]
      · rw [cacheGet, if_neg hhq] at h
        rw [cacheGet, if_neg hhq]
        exact ih h

/-- `setLutPreset` never writes the cache, whatever branch it takes. -/
theorem setLutPreset_cache (s : LutState) (key : String) :
    (setLutPreset s key).cache = s.cache := by
  rcases hk : lutPresetPath key with _ | path
  · simp [setLutPreset, hk, updateLutPass]
  · rcases hc : cacheGet s.cache path with _ | v
    · simp [setLutPreset, hk, hc]
    · simp [setLutPreset, hk, hc, updateLutPass]

/-- Claim C9 (amended): the cache is written only by load completions
(selection and load failure never touch it); once a path is cached it stays
cached across every event; and selecting a preset whose path is already
cached applies the cached resource immediately without issuing a new load.
(A path can however be populated more than once — see the counterexample —
when its preset is re-selected while a load for it is still in flight.) -/
theorem c9_cache :
    (∀ (s : LutState) (e : LutEvent) (p : String),
      (cacheGet s.cache p).isSome = true → (cacheGet (lutStep s e).cache p).isSome = true)
    ∧ (∀ (s : LutState) (key path : String) (v : ℕ), lutPresetPath key = some path →
        cacheGet s.cache path = some v →
        (setLutPreset s key).pending = s.pending ∧
        (setLutPreset s key).lut = some (path, v) ∧
        (setLutPreset s key).cache = s.cache)
    ∧ (∀ (s : LutState) (key : String), (setLutPreset s key).cache = s.cache)
    ∧ (∀ (s : LutState) (p c : String) (m : ℕ), (lutLoadFail s p c m).cache = s.cache) := by
  have hfail : ∀ (s : LutState) (p c : String) (m : ℕ), (lutLoadFail s p c m).cache = s.cache := by
    intro s p c m
    unfold lutLoadFail
    by_cases hc : s.activeLutKey = c
    · simp [hc, updateLutPass]
    · simp [hc]
  refine ⟨?_, ?_, setLutPreset_cache, hfail⟩
  · intro s e p h
    cases e with
    | select k =>
      rw [lutStep, setLutPreset_cache]
      exact h
    | loadOk q c m =>
      rw [lutStep]
      unfold lutLoadOk
      by_cases hc : s.activeLutKey = c
      · simp only [hc, if_pos rfl, updateLutPass]
        exact cacheGet_cacheSet_isSome _ _ _ _ h
      · simp only [if_neg hc]
        exact cacheGet_cacheSet_isSome _ _ _ _ h
    | loadFail q c m =>
      rw [lutStep, hfail]
      exact h
  · intro s key path v hk hc
    simp [setLutPreset, hk, hc, updateLutPass]

/-- Counterexample to C9 as stated: re-selecting `warm` while its first
load is still in flight issues a second load for the same path; both
completions write the cache, so the mapping for `luts/warm.cube` is
populated twice (first with the resource of load 0, then overwritten by the
resource of load 2). -/
theorem c9_counterexample :
    cacheGet (lutRun lutInitState [LutEvent.select ("warm"), LutEvent.select ("green"),
        LutEvent.select ("warm"), LutEvent.loadOk ("luts/warm.cube") "warm" 0]).cache
      "luts/warm.cube" = some 0
    ∧ cacheGet (lutRun lutInitState [LutEvent.select ("warm"), LutEvent.select ("green"),
        LutEvent.select ("warm"), LutEvent.loadOk ("luts/warm.cube") "warm" 0,
        LutEvent.loadOk ("luts/warm.cube") "warm" 2]).cache ("luts/warm.cube") = some 2 := by
  constructor <;>
    simp [lutRun, lutStep, setLutPreset, lutPresetPath, lutLoadOk, lutLoadFail,
      updateLutPass, cacheGet, cacheSet, lutInitState]

/-- Witness for C9 at concrete states: persistence of a cached key across
an event, a cached selection applying immediately with no new load, and
the two no-write facts. -/
theorem c9_cache_witness :
    (cacheGet (lutStep { lutInitState with cache := [("luts/warm.cube", 5)] }
        (LutEvent.select ("green"))).cache ("luts/warm.cube")).isSome = true
    ∧ ((setLutPreset { lutInitState with cache := [("luts/warm.cube", 7)] } "warm").pending =
        LutState.pending { lutInitState with cache := [("luts/warm.cube", 7)] }
      ∧ (setLutPreset { lutInitState with cache := [("luts/warm.cube", 7)] } "warm").lut =
        some ("luts/warm.cube", 7)
      ∧ (setLutPreset { lutInitState with cache := [("luts/warm.cube", 7)] } "warm").cache =
        LutState.cache { lutInitState with cache := [("luts/warm.cube", 7)] })
    ∧ (setLutPreset lutInitState ("warm")).cache = lutInitState.cache
    ∧ (lutLoadFail lutInitState ("luts/warm.cube") "warm" 0).cache = lutInitState.cache :=
  ⟨c9_cache.1 _ _ ("luts/warm.cube") (by simp [lutInitState, cacheGet]),
   c9_cache.2.1 _ ("warm") "luts/warm.cube" 7 rfl (by simp [lutInitState, cacheGet]),
   c9_cache.2.2.1 lutInitState ("warm"),
   c9_cache.2.2.2 lutInitState ("luts/warm.cube") "warm" 0⟩

/-- Claim C8: selecting an unknown preset key normalizes the selection to
the sentinel `"none"`, unbinds the LUT and disables the pass, and every
re-evaluation (`updateLutPass`) enables the grading pass exactly when a
resource is bound, the intensity is positive and a non-sentinel preset is
active. -/
theorem c8_unknown_preset :
    (∀ (s : LutState) (key : String), lutPresetPath key = none →
      (setLutPreset s key).activeLutKey = "none" ∧ (setLutPreset s key).lut = none ∧
        (setLutPreset s key).enabled = false)
    ∧ (∀ s : LutState, (updateLutPass s).enabled = true ↔
        (s.lut.isSome = true ∧ 0 < s.intensity ∧ s.activeLutKey ≠ "none")) := by
  constructor
  · intro s key hkey
    simp [setLutPreset, hkey, updateLutPass]
  · intro s
    simp only [updateLutPass, Bool.and_eq_true, bne_iff_ne, decide_eq_true_eq]
    tauto

/-- Witness for C8: the unknown key `bogus` from the initial state, and the
enable condition evaluated at the initial state. -/
theorem c8_unknown_preset_witness :
    ((setLutPreset lutInitState ("bogus")).activeLutKey = "none" ∧
      (setLutPreset lutInitState ("bogus")).lut = none ∧
      (setLutPreset lutInitState ("bogus")).enabled = false)
    ∧ ((updateLutPass lutInitState).enabled = true ↔
        (lutInitState.lut.isSome = true ∧ 0 < lutInitState.intensity ∧
          lutInitState.activeLutKey ≠ "none")) :=
  ⟨c8_unknown_preset.1 lutInitState ("bogus") rfl, c8_unknown_preset.2 lutInitState⟩

/-- Claim C3: selecting preset `a` and then preset `b` before `a`'s load
completes applies `b`'s resource once both loads complete, in either
completion order; `a`'s resource is never bound at any point of either
trace; and in general a completed load is bound only if the currently
active selection still equals the captured key of that load. -/
theorem c3_lut_race (s0 : LutState) (a b pa pb : String) (i j : ℕ)
    (ha : lutPresetPath a = some pa) (hb : lutPresetPath b = some pb)
    (hab : a ≠ b) (hpab : pa ≠ pb)
    (hca : cacheGet s0.cache pa = none) (hcb : cacheGet s0.cache pb = none)
    (hlut : ∀ n, s0.lut ≠ some (pa, n)) :
    ((lutRun s0 [LutEvent.select a, LutEvent.select b, LutEvent.loadOk pa a i,
        LutEvent.loadOk pb b j]).lut = some (pb, j)
      ∧ (lutRun s0 [LutEvent.select a, LutEvent.select b, LutEvent.loadOk pb b j,
        LutEvent.loadOk pa a i]).lut = some (pb, j))
    ∧ (∀ (n k : ℕ),
        (lutRun s0 (List.take k [LutEvent.select a, LutEvent.select b,
          LutEvent.loadOk pa a i, LutEvent.loadOk pb b j])).lut ≠ some (pa, n)
        ∧ (lutRun s0 (List.take k [LutEvent.select a, LutEvent.select b,
          LutEvent.loadOk pb b j, LutEvent.loadOk pa a i])).lut ≠ some (pa, n))
    ∧ (∀ (s : LutState) (p c : String) (m : ℕ), s.activeLutKey ≠ c →
        (lutLoadOk s p c m).lut = s.lut) := by
  have selU : ∀ (s : LutState) (k p : String), lutPresetPath k = some p →
      cacheGet s.cache p = none →
      (setLutPreset s k).lut = s.lut ∧ (setLutPreset s k).activeLutKey = k ∧
        (setLutPreset s k).cache = s.cache := by
    intro s k p hk hc
    simp [setLutPreset, hk, hc]
  have okStale : ∀ (s : LutState) (p c : String) (m : ℕ), s.activeLutKey ≠ c →
      (lutLoadOk s p c m).lut = s.lut ∧ (lutLoadOk s p c m).activeLutKey = s.activeLutKey := by
    intro s p c m hne
    simp [lutLoadOk, hne]
  have okHit : ∀ (s : LutState) (p c : String) (m : ℕ), s.activeLutKey = c →
      (lutLoadOk s p c m).lut = some (p, m) ∧
        (lutLoadOk s p c m).activeLutKey = s.activeLutKey := by
    intro s p c m he
    simp [lutLoadOk, he, updateLutPass]
  obtain ⟨h1l, h1k, h1c⟩ := selU s0 a pa ha hca
  obtain ⟨h2l, h2k, h2c⟩ := selU (setLutPreset s0 a) b pb hb (by rw [h1c]; exact hcb)
  obtain ⟨h3l, h3k⟩ := okStale (setLutPreset (setLutPreset s0 a) b) pa a i
    (by rw [h2k]; exact Ne.symm hab)
  obtain ⟨h4l, h4k⟩ := okHit (lutLoadOk (setLutPreset (setLutPreset s0 a) b) pa a i) pb b j
    (by rw [h3k]; exact h2k)
  obtain ⟨g3l, g3k⟩ := okHit (setLutPreset (setLutPreset s0 a) b) pb b j h2k
  obtain ⟨g4l, g4k⟩ := okStale (lutLoadOk (setLutPreset (setLutPreset s0 a) b) pb b j) pa a i
    (by rw [g3k, h2k]; exact Ne.symm hab)
  have hpbja : ∀ n : ℕ, some (pb, j) ≠ some (pa, n) := by
    intro n heq
    injection heq with heq'
    injection heq' with heq1 _
    exact hpab heq1.symm
  refine ⟨⟨?_, ?_⟩, ?_, fun s p c m hne => (okStale s p c m hne).1⟩
  · show (lutLoadOk (lutLoadOk (setLutPreset (setLutPreset s0 a) b) pa a i) pb b j).lut =
      some (pb, j)
    exact h4l
  · show (lutLoadOk (lutLoadOk (setLutPreset (setLutPreset s0 a) b) pb b j) pa a i).lut =
      some (pb, j)
    exact g4l.trans g3l
  · intro n k
    rcases k with _ | _ | _ | _ | k
    · exact ⟨hlut n, hlut n⟩
    · constructor <;>
        · show (setLutPreset s0 a).lut ≠ some (pa, n)
          rw [h1l]
          exact hlut n
    · constructor <;>
        · show (setLutPreset (setLutPreset s0 a) b).lut ≠ some (pa, n)
          rw [h2l, h1l]
          exact hlut n
    · constructor
      · show (lutLoadOk (setLutPreset (setLutPreset s0 a) b) pa a i).lut ≠ some (pa, n)
        rw [h3l, h2l, h1l]
        exact hlut n
      · show (lutLoadOk (setLutPreset (setLutPreset s0 a) b) pb b j).lut ≠ some (pa, n)
        rw [g3l]
        exact hpbja n
    · constructor
      · rw [List.take_of_length_le (by simp)]
        show (lutLoadOk (lutLoadOk (setLutPreset (setLutPreset s0 a) b) pa a i) pb b j).lut ≠
          some (pa, n)
        rw [h4l]
        exact hpbja n
      · rw [List.take_of_length_le (by simp)]
        show (lutLoadOk (lutLoadOk (setLutPreset (setLutPreset s0 a) b) pb b j) pa a i).lut ≠
          some (pa, n)
        rw [g4l, g3l]
        exact hpbja n

/-- Witness for C3: the concrete race `select warm; select green` from the
initial state, with load tokens 0 and 1, in both completion orders. -/
theorem c3_lut_race_witness :
    ((lutRun lutInitState [LutEvent.select ("warm"), LutEvent.select ("green"),
        LutEvent.loadOk ("luts/warm.cube") "warm" 0,
        LutEvent.loadOk ("luts/LUT_green.cube") "green" 1]).lut =
          some ("luts/LUT_green.cube", 1)
      ∧ (lutRun lutInitState [LutEvent.select ("warm"), LutEvent.select ("green"),
        LutEvent.loadOk ("luts/LUT_green.cube") "green" 1,
        LutEvent.loadOk ("luts/warm.cube") "warm" 0]).lut =
          some ("luts/LUT_green.cube", 1))
    ∧ (∀ (n k : ℕ),
        (lutRun lutInitState (List.take k [LutEvent.select ("warm"), LutEvent.select ("green"),
          LutEvent.loadOk ("luts/warm.cube") "warm" 0,
          LutEvent.loadOk ("luts/LUT_green.cube") "green" 1])).lut ≠
            some ("luts/warm.cube", n)
        ∧ (lutRun lutInitState (List.take k [LutEvent.select ("warm"), LutEvent.select ("green"),
          LutEvent.loadOk ("luts/LUT_green.cube") "green" 1,
          LutEvent.loadOk ("luts/warm.cube") "warm" 0])).lut ≠
            some ("luts/warm.cube", n))
    ∧ (∀ (s : LutState) (p c : String) (m : ℕ), s.activeLutKey ≠ c →
        (lutLoadOk s p c m).lut = s.lut) :=
  c3_lut_race lutInitState ("warm") "green" "luts/warm.cube" "luts/LUT_green.cube" 0 1
    rfl rfl (by simp) (by simp) rfl rfl (fun n => by simp [lutInitState])
